import Mathlib

/-
Shallow embedding of the nfl-playoff-pool server (src/server.js and the
unnamed near-duplicate variant src/unnamed/part_000).

The relational store (tables `entries`, `entry_players`, `player_scores`)
is modelled as lists of rows; SQLite autoincrement ids are threaded
explicitly.  Route handlers become pure state-passing functions:

  * POST /api/entries                -> submitEntry
  * GET  /api/leaderboard            -> leaderboard
  * POST /api/admin/player-scores    -> recordScore
  * regeneratePlayersCSV             -> regeneratePlayersCSV over a FileState
  * POST /api/admin/import-entries   -> importEntries

A possible runtime failure of one of the 14 `entry_players` INSERTs inside
the better-sqlite3 `db.transaction` is modelled by the `failAt` parameter
of submitEntry: when the injected failure index is in range, the
transaction body throws and better-sqlite3 rolls the transaction back, so
the `entry_players` table is left untouched; the `entries` INSERT ran
earlier, outside the transaction, in autocommit mode, so it stays.
-/

/-- One pick in the body of POST /api/entries (fields p.id, p.name,
p.position, p.team read by the handler). -/
structure Pick where
  id : String
  name : String
  position : String
  team : String
deriving DecidableEq

/-- One row of the `entries` table.  `created_at` (DATETIME DEFAULT
CURRENT_TIMESTAMP) is modelled as a Nat timestamp supplied by the caller. -/
structure EntryRow where
  id : Nat
  entry_name : String
  email : String
  paid : Bool
  notes : String
  created_at : Nat
deriving DecidableEq

/-- One row of the `entry_players` table (surrogate key omitted: no route
ever reads it). -/
structure EntryPlayerRow where
  entry_id : Nat
  player_id : String
  player_name : String
  position : String
  team : String
deriving DecidableEq

/-- One row of the `player_scores` table; `player_id` is the primary key. -/
structure PlayerScoreRow where
  player_id : String
  wildcard : Int
  divisional : Int
  conference : Int
  superbowl : Int
deriving DecidableEq

/-- The embedded SQLite database. -/
structure Store where
  entries : List EntryRow
  entry_players : List EntryPlayerRow
  player_scores : List PlayerScoreRow
  nextEntryId : Nat
deriving DecidableEq

/-- Outcome of POST /api/entries: the JSON success body or one of the
error responses (403 closed, 400 invalid, 400 quota, 500 on a thrown
insert error). -/
inductive SubmitOutcome where
  | ok (entryId : Nat)
  | submissionsClosed
  | invalidEntryData
  | quotaExceeded
  | insertFailed
deriving DecidableEq

/-- SELECT COUNT(*) FROM entries WHERE email = ? (also GET /api/entries/count). -/
def countEntriesFor (s : Store) (email : String) : Nat :=
  (s.entries.filter (fun e => e.email = email)).length

/-- The body of the `insertMany` transaction: the 14 `entry_players`
INSERTs executed in order. -/
def insertPlayersBody (entryId : Nat) (players : List Pick)
    (eps : List EntryPlayerRow) : List EntryPlayerRow :=
  players.foldl (fun acc p => acc ++ [⟨entryId, p.id, p.name, p.position, p.team⟩]) eps

/-- Whether the injected failure index hits one of the INSERTs actually
executed inside the transaction. -/
def txFails (players : List Pick) (failAt : Option Nat) : Bool :=
  match failAt with
  | some k => k < players.length
  | none => false

/-- POST /api/entries.  Checks entriesOpen, validates the fields, checks
the per-email quota, disambiguates the entry name, INSERTs the entry row
(autocommit), then runs the 14 player INSERTs inside one transaction;
`failAt` injects a throwing INSERT, which rolls that transaction back. -/
def submitEntry (s : Store) (entriesOpen : Bool) (entryName email : String)
    (players : List Pick) (now : Nat) (failAt : Option Nat) : Store × SubmitOutcome :=
  if entriesOpen = false then (s, .submissionsClosed)
  else if entryName = "" ∨ email = "" ∨ players.length ≠ 14 then (s, .invalidEntryData)
  else
    let count := countEntriesFor s email
    if 4 ≤ count then (s, .quotaExceeded)
    else
      let finalName := if 0 < count then entryName ++ "-" ++ toString (count + 1) else entryName
      let entryId := s.nextEntryId
      let s1 : Store := { s with
        entries := s.entries ++ [⟨entryId, finalName, email, false, "", now⟩],
        nextEntryId := entryId + 1 }
      if txFails players failAt then (s1, .insertFailed)
      else ({ s1 with entry_players := insertPlayersBody entryId players s1.entry_players },
            .ok entryId)

/-- Score contribution of one player id: the four COALESCEd columns of the
LEFT JOINed `player_scores` row, 0 each when no row matches. -/
def playerRoundTotal (scores : List PlayerScoreRow) (pid : String) : Int :=
  match scores.find? (fun r => r.player_id = pid) with
  | some r => r.wildcard + r.divisional + r.conference + r.superbowl
  | none => 0

/-- One row of the GET /api/leaderboard response; `created_at` is carried
because ORDER BY reads it (it is not serialized in server.js). -/
structure LeaderboardRow where
  entry_name : String
  total_score : Int
  created_at : Nat
deriving DecidableEq

/-- Rows of `entry_players` belonging to one entry. -/
def entryPlayersOf (s : Store) (entryId : Nat) : List EntryPlayerRow :=
  s.entry_players.filter (fun p => p.entry_id = entryId)

/-- The SUM(...) GROUP BY e.id aggregate for one entry. -/
def entryTotalScore (s : Store) (e : EntryRow) : Int :=
  ((entryPlayersOf s e.id).map (fun p => playerRoundTotal s.player_scores p.player_id)).sum

/-- ORDER BY total_score DESC, e.created_at ASC as a boolean comparator. -/
def lbLe (a b : LeaderboardRow) : Bool :=
  decide (b.total_score < a.total_score ∨
    (a.total_score = b.total_score ∧ a.created_at ≤ b.created_at))

/-- Propositional form of the ORDER BY comparator. -/
def lbRel (a b : LeaderboardRow) : Prop := lbLe a b = true

instance : DecidableRel lbRel := fun a b => instDecidableEqBool (lbLe a b) true

instance : IsTrans LeaderboardRow lbRel :=
  ⟨fun a b c hab hbc => by
    simp only [lbRel, lbLe, decide_eq_true_eq] at hab hbc ⊢
    omega⟩

instance : IsTotal LeaderboardRow lbRel :=
  ⟨fun a b => by
    simp only [lbRel, lbLe, decide_eq_true_eq]
    omega⟩

/-- GET /api/leaderboard: the inner JOIN keeps exactly the entries that
have at least one `entry_players` row, each aggregated then ordered. -/
def leaderboard (s : Store) : List LeaderboardRow :=
  ((s.entries.filter (fun e => !(entryPlayersOf s e.id).isEmpty)).map
    (fun e => (⟨e.entry_name, entryTotalScore s e, e.created_at⟩ : LeaderboardRow))).insertionSort lbRel

/-- INSERT ... ON CONFLICT(player_id) DO UPDATE SET all four columns to the
excluded values: replaces the conflicting row in place, else appends. -/
def upsertScore (rows : List PlayerScoreRow) (r : PlayerScoreRow) : List PlayerScoreRow :=
  if rows.any (fun x => x.player_id = r.player_id) then
    rows.map (fun x => if x.player_id = r.player_id then r else x)
  else rows ++ [r]

/-- POST /api/admin/player-scores.  A missing numeric field is `undefined`
in the request body and `wildcard || 0` turns it into 0: modelled by
Option with getD 0. -/
def recordScore (s : Store) (pid : String) (w d c sb : Option Int) : Store :=
  { s with player_scores :=
      upsertScore s.player_scores ⟨pid, w.getD 0, d.getD 0, c.getD 0, sb.getD 0⟩ }

/-- SELECT ... FROM player_scores WHERE player_id = ?. -/
def getScoreRow (s : Store) (pid : String) : Option PlayerScoreRow :=
  s.player_scores.find? (fun r => r.player_id = pid)

/-- Character class of the regex [^a-zA-Z0-9] complement: the characters
`name.replace(/[^a-zA-Z0-9]/g, '')` keeps. -/
def isCsvAlnum (c : Char) : Bool :=
  (decide (('a' : Char) ≤ c) && decide (c ≤ ('z' : Char))) ||
  (decide (('A' : Char) ≤ c) && decide (c ≤ ('Z' : Char))) ||
  (decide (('0' : Char) ≤ c) && decide (c ≤ ('9' : Char)))

/-- The `clean` name: all characters outside [a-zA-Z0-9] removed. -/
def sanitize (name : String) : String :=
  String.mk (name.data.filter isCsvAlnum)

/-- The parsed player-pool.json object: position key -> (team key -> list
of player names), in the insertion order JSON.parse preserves. -/
structure Pool where
  posGroups : List (String × List (String × List String))
deriving DecidableEq

/-- JavaScript property access pool[pos]. -/
def poolGet (pool : Pool) (pos : String) : Option (List (String × List String)) :=
  (pool.posGroups.find? (fun g => g.1 = pos)).map (fun g => g.2)

/-- One pushed catalog line: the `add(pos, team, name)` helper. -/
def csvRow (pos team name : String) : String :=
  pos ++ "_" ++ team ++ "_" ++ sanitize name ++ "," ++ name ++ "," ++ pos ++ "," ++ team

/-- The body of one iteration of `['QB','RB','WR','TE'].forEach`: pushes a
row for every pool player of that position, teams in key order. -/
def addPosRows (pool : Pool) (rows : List String) (pos : String) : List String :=
  match poolGet pool pos with
  | none => rows
  | some groups =>
    groups.foldl (fun acc tg => tg.2.foldl (fun acc2 n => acc2 ++ [csvRow pos tg.1 n]) acc) rows

/-- The full `rows` array of regeneratePlayersCSV: header, pool positions
in order QB, RB, WR, TE, then one synthesized kicker per team. -/
def catalogRows (teams : List String) (pool : Pool) : List String :=
  teams.foldl (fun acc t => acc ++ [csvRow "K" t (t ++ "K")])
    (["QB", "RB", "WR", "TE"].foldl (addPosRows pool) ["PlayerID,PlayerName,Position,TeamID"])

/-- rows.join('\n'): the byte content written to players.csv. -/
def catalogCSV (teams : List String) (pool : Pool) : String :=
  String.intercalate "\n" (catalogRows teams pool)

/-- The flat files regeneratePlayersCSV touches: parsed
playoff-teams.json, parsed player-pool.json, and the players.csv bytes;
`none` models an absent file. -/
structure FileState where
  teamsFile : Option (List String)
  poolFile : Option Pool
  catalogFile : Option String
deriving DecidableEq

/-- regeneratePlayersCSV from src/unnamed/part_000: returns without
writing when either input file is absent, otherwise overwrites
players.csv with the generated rows. -/
def regeneratePlayersCSV (fs : FileState) : FileState :=
  match fs.teamsFile, fs.poolFile with
  | some teams, some pool => { fs with catalogFile := some (catalogCSV teams pool) }
  | _, _ => fs

/-- One parsed line of players.csv as the import handler splits it:
[PlayerID, PlayerName, Position, TeamID]. -/
structure CatalogRow where
  pid : String
  pname : String
  pos : String
  team : String
deriving DecidableEq

/-- ASCII uppercase of one character: the effect of JavaScript
toUpperCase on the ASCII strings this service handles. -/
def upChar (c : Char) : Char :=
  if 'a' ≤ c ∧ c ≤ 'z' then Char.ofNat (c.toNat - 32) else c

/-- JavaScript String.prototype.toUpperCase (ASCII range). -/
def strUpper (s : String) : String := String.mk (s.data.map upChar)

/-- Whitespace stripped by JavaScript String.prototype.trim. -/
def isJsWs (c : Char) : Bool := c = ' ' ∨ c = '\t' ∨ c = '\n' ∨ c = '\r'

/-- JavaScript String.prototype.trim. -/
def strTrim (s : String) : String :=
  String.mk (((s.data.dropWhile isJsWs).reverse.dropWhile isJsWs).reverse)

/-- JavaScript s.substring(0, s.length - 1): the string minus its last
character. -/
def strDropLast (s : String) : String := String.mk s.data.dropLast

/-- The import lookup object keyed by NAME|TEAM|POS (all upper-cased);
later lines overwrite earlier ones, so the last matching line wins. -/
def lookupPid (cat : List CatalogRow) (key : String) : Option String :=
  (cat.reverse.find?
    (fun r => strUpper r.pname ++ "|" ++ strUpper r.team ++ "|" ++ strUpper r.pos = key)).map
    (fun r => r.pid)

/-- One pick of one row of the POST /api/admin/import-entries body. -/
structure ImportPick where
  player_name : String
  team : String
  position : String
deriving DecidableEq

/-- One row of the POST /api/admin/import-entries body. -/
structure ImportRow where
  entry_name : String
  email : String
  paid : Bool
  notes : String
  players : List ImportPick
deriving DecidableEq

/-- Normalization and lookup of one imported pick, including the kicker
special case (team inferred from the name when blank or "UNDEFINED");
returns the (realId, pName, pPos, pTeam) tuple inserted on success, none
when the lookup misses and the handler throws PlayerNotFound. -/
def resolvePick (cat : List CatalogRow) (p : ImportPick) :
    Option (String × String × String × String) :=
  let pName := strTrim p.player_name
  let pTeam0 := strUpper (strTrim p.team)
  let pPos := strUpper (strTrim p.position)
  let pTeam := if pPos = "K" ∧ (pTeam0 = "" ∨ pTeam0 = "UNDEFINED")
    then strDropLast pName else pTeam0
  (lookupPid cat (strUpper pName ++ "|" ++ pTeam ++ "|" ++ pPos)).map
    (fun rid => (rid, pName, pPos, pTeam))

/-- The `entry_players` INSERTs for one imported row; none when any pick
fails to resolve (the thrown error aborts the transaction body). -/
def insertPicks (cat : List CatalogRow) (entryId : Nat) :
    List ImportPick → Option (List EntryPlayerRow)
  | [] => some []
  | p :: rest =>
    match resolvePick cat p with
    | none => none
    | some q =>
      (insertPicks cat entryId rest).map
        (fun eps => ⟨entryId, q.1, q.2.1, q.2.2.1, q.2.2.2⟩ :: eps)

/-- The transaction body after the two DELETEs: rows inserted in order,
entry ids continuing from the autoincrement counter. -/
def insertImportRows (cat : List CatalogRow) (now : Nat) :
    Nat → List ImportRow → Option (List EntryRow × List EntryPlayerRow)
  | _, [] => some ([], [])
  | nid, r :: rest =>
    match insertPicks cat nid r.players with
    | none => none
    | some eps =>
      (insertImportRows cat now (nid + 1) rest).map
        (fun q => (⟨nid, r.entry_name, r.email, r.paid, r.notes, now⟩ :: q.1, eps ++ q.2))

/-- POST /api/admin/import-entries: inside one db.transaction, DELETE all
entry_players and entries, then insert every imported row; any unresolved
pick throws, better-sqlite3 rolls the whole transaction (deletes
included) back, and the handler answers 400.  The Bool is success. -/
def importEntries (s : Store) (cat : List CatalogRow) (rows : List ImportRow)
    (now : Nat) : Store × Bool :=
  if rows.isEmpty then (s, false)
  else
    match insertImportRows cat now s.nextEntryId rows with
    | none => (s, false)
    | some q =>
      ((⟨q.1, q.2, s.player_scores, s.nextEntryId + rows.length⟩ : Store), true)

/-- Expected entries after a successful import of `rows` starting at
autoincrement id `nid`: one EntryRow per ImportRow, in order. -/
def entriesFromRows (now : Nat) : Nat → List ImportRow → List EntryRow
  | _, [] => []
  | nid, r :: rest =>
    ⟨nid, r.entry_name, r.email, r.paid, r.notes, now⟩ :: entriesFromRows now (nid + 1) rest

/-- Catalog rows one position contributes, stated the way the spec words
it: for each team group of pool[pos], one row per player, with playerId
`position_team_sanitizedName`. -/
def posRowsSpec (pool : Pool) (pos : String) : List String :=
  match poolGet pool pos with
  | none => []
  | some groups =>
    groups.flatMap (fun tg => tg.2.map (fun n =>
      pos ++ "_" ++ tg.1 ++ "_" ++ sanitize n ++ "," ++ n ++ "," ++ pos ++ "," ++ tg.1))

/-- Empty player pool (player-pool.json holding `{}`). -/
def poolEmpty : Pool := ⟨[]⟩

/-- Pool with one quarterback for team KC. -/
def poolOne : Pool := ⟨[("QB", [("KC", ["John Smith"])])]⟩

/-- Fourteen playoff teams, the first containing non-alphanumeric dots. -/
def teams14 : List String :=
  ["S.F.", "T02", "T03", "T04", "T05", "T06", "T07",
   "T08", "T09", "T10", "T11", "T12", "T13", "T14"]

/-- Empty database with the autoincrement counter at 1. -/
def s0 : Store := ⟨[], [], [], 1⟩

/-- A sample pick. -/
def mkPick (i : Nat) : Pick := ⟨"P" ++ toString i, "N" ++ toString i, "QB", "KC"⟩

/-- A valid 14-element players array. -/
def fourteenPicks : List Pick := (List.range 14).map mkPick

/-- A sample stored entry for email a@b.c. -/
def entry4 (i : Nat) : EntryRow := ⟨i, "E" ++ toString i, "a@b.c", false, "", i⟩

/-- Database already holding 4 entries for a@b.c. -/
def s4 : Store := ⟨[entry4 1, entry4 2, entry4 3, entry4 4], [], [], 5⟩

/-- A sample entry player row for entry 1. -/
def epC6 (i : Nat) : EntryPlayerRow := ⟨1, "P" ++ toString i, "N", "QB", "KC"⟩

/-- Database with one entry holding 14 players, one of which has a
player_scores row (3 + 5 + 0 + 0). -/
def sC6 : Store :=
  ⟨[⟨1, "Team A", "a@b.c", false, "", 10⟩], (List.range 14).map epC6,
   [⟨"P0", 3, 5, 0, 0⟩], 2⟩

/-- Database with two scored entries of equal total and distinct creation
times. -/
def sLB : Store :=
  ⟨[⟨1, "First", "x@y", false, "", 5⟩, ⟨2, "Second", "x@y", false, "", 3⟩],
   [⟨1, "P1", "A", "QB", "KC"⟩, ⟨2, "P1", "A", "QB", "KC"⟩], [], 3⟩

/-- Catalog holding only John Smith. -/
def catW : List CatalogRow := [⟨"QB_KC_JohnSmith", "John Smith", "QB", "KC"⟩]

/-- Import row whose single pick is not in the catalog. -/
def rowW : ImportRow := ⟨"T1", "a@b", false, "", [⟨"Jane Doe", "KC", "QB"⟩]⟩

/-- Database with one pre-import entry and player. -/
def sW : Store := ⟨[⟨1, "Old", "o@o", true, "n", 2⟩], [⟨1, "X", "X", "QB", "KC"⟩], [], 2⟩

theorem foldl_push_eq_append_map {α β : Type} (f : α → β) :
    ∀ (l : List α) (acc : List β), l.foldl (fun a x => a ++ [f x]) acc = acc ++ l.map f := by
  intro l
  induction l with
  | nil => intro acc; simp
  | cons x xs ih => intro acc; simp [List.foldl_cons, ih]

theorem nested_foldl_push (pos : String) :
    ∀ (groups : List (String × List String)) (acc : List String),
      groups.foldl (fun a tg => tg.2.foldl (fun a2 n => a2 ++ [csvRow pos tg.1 n]) a) acc
        = acc ++ groups.flatMap (fun tg => tg.2.map (fun n => csvRow pos tg.1 n)) := by
  intro groups
  induction groups with
  | nil => intro acc; simp
  | cons tg rest ih =>
    intro acc
    simp only [List.foldl_cons, List.flatMap_cons]
    rw [foldl_push_eq_append_map, ih, List.append_assoc]

theorem addPosRows_eq (pool : Pool) (acc : List String) (pos : String) :
    addPosRows pool acc pos = acc ++ posRowsSpec pool pos := by
  unfold addPosRows posRowsSpec
  cases poolGet pool pos with
  | none => simp
  | some groups => simpa [csvRow] using nested_foldl_push pos groups acc

theorem find_map_replace (r : PlayerScoreRow) :
    ∀ (rows : List PlayerScoreRow), rows.any (fun x => x.player_id = r.player_id) = true →
      (rows.map (fun x => if x.player_id = r.player_id then r else x)).find?
        (fun x => x.player_id = r.player_id) = some r := by
  intro rows
  induction rows with
  | nil => intro h; simp at h
  | cons y ys ih =>
    intro h
    by_cases hy : y.player_id = r.player_id
    · simp [List.find?_cons, hy]
    · have hys : ys.any (fun x => x.player_id = r.player_id) = true := by
        simp only [List.any_cons, Bool.or_eq_true, decide_eq_true_eq] at h
        rcases h with h | h
        · exact absurd h hy
        · simpa using h
      simp [List.find?_cons, hy, ih hys]

theorem find_append_new (r : PlayerScoreRow) :
    ∀ (rows : List PlayerScoreRow), rows.any (fun x => x.player_id = r.player_id) = false →
      (rows ++ [r]).find? (fun x => x.player_id = r.player_id) = some r := by
  intro rows
  induction rows with
  | nil => simp
  | cons y ys ih =>
    intro h
    simp only [List.any_cons, Bool.or_eq_false_iff, decide_eq_false_iff_not] at h
    simp [List.find?_cons, h.1, ih (by simpa using h.2)]

theorem find_upsertScore (rows : List PlayerScoreRow) (r : PlayerScoreRow) :
    (upsertScore rows r).find? (fun x => x.player_id = r.player_id) = some r := by
  unfold upsertScore
  by_cases h : rows.any (fun x => x.player_id = r.player_id) = true
  · rw [if_pos h]; exact find_map_replace r rows h
  · rw [if_neg h]
    exact find_append_new r rows (by simpa using h)

theorem upsertScore_idem (rows : List PlayerScoreRow) (r : PlayerScoreRow) :
    upsertScore (upsertScore rows r) r = upsertScore rows r := by
  unfold upsertScore
  by_cases h : rows.any (fun x => x.player_id = r.player_id) = true
  · rw [if_pos h]
    have hmem : (rows.map (fun x => if x.player_id = r.player_id then r else x)).any
        (fun x => x.player_id = r.player_id) = true := by
      rw [List.any_eq_true] at h ⊢
      obtain ⟨x, hx, hxp⟩ := h
      refine ⟨r, List.mem_map.mpr ⟨x, hx, ?_⟩, by simp⟩
      simp [of_decide_eq_true hxp]
    rw [if_pos hmem, List.map_map]
    apply List.map_congr_left
    intro x _
    by_cases hx : x.player_id = r.player_id <;> simp [Function.comp, hx]
  · rw [if_neg h]
    have hall : ∀ x ∈ rows, ¬x.player_id = r.player_id := by
      intro x hx hxp
      apply h
      rw [List.any_eq_true]
      exact ⟨x, hx, by simp [hxp]⟩
    have hmem : (rows ++ [r]).any (fun x => x.player_id = r.player_id) = true := by
      rw [List.any_eq_true]
      exact ⟨r, by simp, by simp⟩
    rw [if_pos hmem, List.map_append]
    have h1 : rows.map (fun x => if x.player_id = r.player_id then r else x) = rows := by
      conv_rhs => rw [← List.map_id rows]
      apply List.map_congr_left
      intro x hx
      simp [hall x hx]
    simp [h1]

theorem insertPicks_of_unresolved (cat : List CatalogRow) (entryId : Nat) :
    ∀ (ps : List ImportPick), (∃ p ∈ ps, resolvePick cat p = none) →
      insertPicks cat entryId ps = none := by
  intro ps
  induction ps with
  | nil => rintro ⟨p, hp, _⟩; simp at hp
  | cons q rest ih =>
    rintro ⟨p, hp, hres⟩
    rcases List.mem_cons.mp hp with h | hmem
    · subst h; simp [insertPicks, hres]
    · simp only [insertPicks]
      cases hq : resolvePick cat q with
      | none => rfl
      | some t => simp [ih ⟨p, hmem, hres⟩]

theorem insertImportRows_of_unresolved (cat : List CatalogRow) (now : Nat) :
    ∀ (rows : List ImportRow) (nid : Nat),
      (∃ r ∈ rows, ∃ p ∈ r.players, resolvePick cat p = none) →
      insertImportRows cat now nid rows = none := by
  intro rows
  induction rows with
  | nil => rintro nid ⟨r, hr, _⟩; simp at hr
  | cons r0 rest ih =>
    rintro nid ⟨r, hr, p, hp, hres⟩
    rcases List.mem_cons.mp hr with h | hmem
    · subst h
      simp [insertImportRows, insertPicks_of_unresolved cat nid r.players ⟨p, hp, hres⟩]
    · simp only [insertImportRows]
      cases hq : insertPicks cat nid r0.players with
      | none => rfl
      | some eps => simp [ih (nid + 1) ⟨r, hmem, p, hp, hres⟩]


theorem insertImportRows_entries (cat : List CatalogRow) (now : Nat) :
    ∀ (rows : List ImportRow) (nid : Nat) (es : List EntryRow) (eps : List EntryPlayerRow),
      insertImportRows cat now nid rows = some (es, eps) →
      es = entriesFromRows now nid rows := by
  intro rows
  induction rows with
  | nil =>
    intro nid es eps h
    simp only [insertImportRows, Option.some.injEq, Prod.mk.injEq] at h
    simp [entriesFromRows, ← h.1]
  | cons r rest ih =>
    intro nid es eps h
    simp only [insertImportRows] at h
    cases hq : insertPicks cat nid r.players with
    | none => rw [hq] at h; simp at h
    | some eps0 =>
      rw [hq] at h
      cases hrest : insertImportRows cat now (nid + 1) rest with
      | none => rw [hrest] at h; simp at h
      | some q =>
        rw [hrest] at h
        simp only [Option.map_some', Option.some.injEq, Prod.mk.injEq] at h
        rw [entriesFromRows, ← ih (nid + 1) q.1 q.2 (by rw [hrest]), ← h.1]

theorem insertPicks_resolved (cat : List CatalogRow) (entryId : Nat) :
    ∀ (ps : List ImportPick) (eps : List EntryPlayerRow),
      insertPicks cat entryId ps = some eps →
      ∀ ep ∈ eps, ∃ p ∈ ps,
        resolvePick cat p = some (ep.player_id, ep.player_name, ep.position, ep.team) := by
  intro ps
  induction ps with
  | nil =>
    intro eps h ep hep
    simp only [insertPicks, Option.some.injEq] at h
    rw [← h] at hep
    simp at hep
  | cons q rest ih =>
    intro eps h ep hep
    simp only [insertPicks] at h
    cases hq : resolvePick cat q with
    | none => rw [hq] at h; simp at h
    | some t =>
      rw [hq] at h
      cases hrest : insertPicks cat entryId rest with
      | none => rw [hrest] at h; simp at h
      | some eps1 =>
        rw [hrest] at h
        simp only [Option.map_some', Option.some.injEq] at h
        rw [← h] at hep
        rcases List.mem_cons.mp hep with he | hmem
        · subst he
          exact ⟨q, List.mem_cons_self q rest, by rw [hq]⟩
        · obtain ⟨p, hp, hres⟩ := ih eps1 hrest ep hmem
          exact ⟨p, List.mem_cons_of_mem q hp, hres⟩

theorem insertImportRows_players (cat : List CatalogRow) (now : Nat) :
    ∀ (rows : List ImportRow) (nid : Nat) (es : List EntryRow) (eps : List EntryPlayerRow),
      insertImportRows cat now nid rows = some (es, eps) →
      ∀ ep ∈ eps, ∃ r ∈ rows, ∃ p ∈ r.players,
        resolvePick cat p = some (ep.player_id, ep.player_name, ep.position, ep.team) := by
  intro rows
  induction rows with
  | nil =>
    intro nid es eps h ep hep
    simp only [insertImportRows, Option.some.injEq, Prod.mk.injEq] at h
    rw [← h.2] at hep
    simp at hep
  | cons r0 rest ih =>
    intro nid es eps h ep hep
    simp only [insertImportRows] at h
    cases hq : insertPicks cat nid r0.players with
    | none => rw [hq] at h; simp at h
    | some eps0 =>
      rw [hq] at h
      cases hrest : insertImportRows cat now (nid + 1) rest with
      | none => rw [hrest] at h; simp at h
      | some q =>
        rw [hrest] at h
        simp only [Option.map_some', Option.some.injEq, Prod.mk.injEq] at h
        rw [← h.2] at hep
        rcases List.mem_append.mp hep with hmem | hmem
        · obtain ⟨p, hp, hres⟩ := insertPicks_resolved cat nid r0.players eps0 hq ep hmem
          exact ⟨r0, List.mem_cons_self r0 rest, p, hp, hres⟩
        · obtain ⟨r, hr, p, hp, hres⟩ := ih (nid + 1) q.1 q.2 (by rw [hrest]) ep hmem
          exact ⟨r, List.mem_cons_of_mem r0 hr, p, hp, hres⟩

theorem sanitize_append_alnum (t : String) (ht : ∀ c ∈ t.data, isCsvAlnum c = true) :
    sanitize (t ++ "K") = t ++ "K" := by
  unfold sanitize
  rw [String.data_append]
  have hK : ("K" : String).data = ['K'] := rfl
  have hfK : List.filter isCsvAlnum ['K'] = ['K'] := rfl
  rw [hK, List.filter_append, List.filter_eq_self.mpr ht, hfK]
  cases t with
  | mk d => rfl

theorem kicker_row_eq (t : String) (ht : ∀ c ∈ t.data, isCsvAlnum c = true) :
    csvRow "K" t (t ++ "K")
      = "K_" ++ t ++ "_" ++ t ++ "K" ++ "," ++ t ++ "K" ++ ",K," ++ t := by
  unfold csvRow
  rw [sanitize_append_alnum t ht]
  apply String.ext
  have d1 : ("K" : String).data = ['K'] := rfl
  have d2 : ("_" : String).data = ['_'] := rfl
  have d3 : ("," : String).data = [','] := rfl
  have d4 : ("K_" : String).data = ['K', '_'] := rfl
  have d5 : ((",K,") : String).data = [',', 'K', ','] := rfl
  simp [String.data_append, d1, d2, d3, d4, d5]

/-- C1: the claimed all-15-rows-or-none atomicity of POST /api/entries
fails at a concrete failing input.  With an empty store, entries open and
a valid 14-player submission whose 8th player INSERT throws inside the
`insertMany` transaction, the post state holds the committed Entry row
(inserted earlier, outside that transaction) and zero EntryPlayer rows:
1 new row, neither 15 nor 0. -/
theorem c1_entry_row_left_behind :
    submitEntry s0 true "Team A" "a@b.c" fourteenPicks 100 (some 7)
      = ((⟨[⟨1, "Team A", "a@b.c", false, "", 100⟩], [], [], 2⟩ : Store),
         SubmitOutcome.insertFailed)
    ∧ (submitEntry s0 true "Team A" "a@b.c" fourteenPicks 100 (some 7)).1.entries.length
        - s0.entries.length = 1
    ∧ (submitEntry s0 true "Team A" "a@b.c" fourteenPicks 100 (some 7)).1.entry_players.length
        - s0.entry_players.length = 0 := by
  decide

/-- C2: when an email already has at least 4 entries, a further valid,
open submission answers QuotaExceeded and returns the store unchanged:
no Entry row and no EntryPlayer row is added. -/
theorem c2_quota_rejects_unchanged (s : Store) (entryName email : String)
    (players : List Pick) (now : Nat) (failAt : Option Nat)
    (hn : entryName ≠ "") (he : email ≠ "") (hp : players.length = 14)
    (hq : 4 ≤ countEntriesFor s email) :
    submitEntry s true entryName email players now failAt = (s, SubmitOutcome.quotaExceeded) := by
  simp [submitEntry, hn, he, hp, hq]

/-- Witness for C2 at a store holding 4 entries for a@b.c. -/
theorem c2_witness :
    submitEntry s4 true "Team X" "a@b.c" fourteenPicks 50 none
      = (s4, SubmitOutcome.quotaExceeded) :=
  c2_quota_rejects_unchanged s4 "Team X" "a@b.c" fourteenPicks 50 none
    (by decide) (by decide) (by decide) (by decide)

/-- C3: a valid, open, under-quota submission appends exactly one Entry
row whose stored name is the submitted entryName when the email has no
prior entries, and entryName-(n+1) when it already has n > 0. -/
theorem c3_name_disambiguation (s : Store) (entryName email : String)
    (players : List Pick) (now : Nat)
    (hn : entryName ≠ "") (he : email ≠ "") (hp : players.length = 14)
    (hq : countEntriesFor s email < 4) :
    (submitEntry s true entryName email players now none).1.entries
      = s.entries ++ [⟨s.nextEntryId,
          if 0 < countEntriesFor s email
          then entryName ++ "-" ++ toString (countEntriesFor s email + 1)
          else entryName,
          email, false, "", now⟩]
    ∧ (countEntriesFor s email = 0 →
        (submitEntry s true entryName email players now none).1.entries
          = s.entries ++ [⟨s.nextEntryId, entryName, email, false, "", now⟩])
    ∧ (∀ n, countEntriesFor s email = n → 0 < n →
        (submitEntry s true entryName email players now none).1.entries
          = s.entries ++ [⟨s.nextEntryId, entryName ++ "-" ++ toString (n + 1),
              email, false, "", now⟩]) := by
  have h3 : ¬4 ≤ countEntriesFor s email := by omega
  refine ⟨?_, ?_, ?_⟩
  · simp [submitEntry, hn, he, hp, h3, txFails]
  · intro h0
    simp [submitEntry, hn, he, hp, h3, txFails, h0]
  · intro n hn0 hpos
    have h4 : ¬4 ≤ n := by omega
    simp [submitEntry, hn, he, hp, txFails, hn0, hpos, h4]

/-- Witness for C3: submitting entryName Team A twice from a@b.c stores
names Team A then Team A-2. -/
theorem c3_witness :
    (submitEntry s0 true "Team A" "a@b.c" fourteenPicks 10 none).1.entries
        = [⟨1, "Team A", "a@b.c", false, "", 10⟩]
    ∧ (submitEntry (submitEntry s0 true "Team A" "a@b.c" fourteenPicks 10 none).1
          true "Team A" "a@b.c" fourteenPicks 11 none).1.entries
        = [⟨1, "Team A", "a@b.c", false, "", 10⟩, ⟨2, "Team A-2", "a@b.c", false, "", 11⟩] := by
  have h1 := c3_name_disambiguation s0 "Team A" "a@b.c" fourteenPicks 10
    (by decide) (by decide) (by decide) (by decide)
  have h2 := c3_name_disambiguation (submitEntry s0 true "Team A" "a@b.c" fourteenPicks 10 none).1
    "Team A" "a@b.c" fourteenPicks 11 (by decide) (by decide) (by decide) (by decide)
  exact ⟨h1.1.trans (by decide), h2.1.trans (by decide)⟩

/-- C4 counterexample: with only 2 configured teams (not 14) and a present
pool, catalog generation does not fail: it writes a catalog holding one
kicker per listed team. -/
theorem c4_counterexample :
    regeneratePlayersCSV ⟨some ["A", "B"], some poolEmpty, none⟩
      = ⟨some ["A", "B"], some poolEmpty,
         some "PlayerID,PlayerName,Position,TeamID\nK_A_AK,AK,K,A\nK_B_BK,BK,K,B"⟩ := by
  decide

/-- C4 amended: catalog generation writes nothing when either the
playoff-teams file or the player-pool file is absent, and otherwise
always writes the generated catalog, performing no team-count check. -/
theorem c4_generation_behavior (fs : FileState) :
    ((fs.teamsFile = none ∨ fs.poolFile = none) → regeneratePlayersCSV fs = fs)
    ∧ (∀ teams pool, fs.teamsFile = some teams → fs.poolFile = some pool →
        regeneratePlayersCSV fs = ⟨fs.teamsFile, fs.poolFile, some (catalogCSV teams pool)⟩) := by
  obtain ⟨tf, pf, cf⟩ := fs
  cases tf with
  | none => exact ⟨fun _ => rfl, fun teams pool ht _ => by simp at ht⟩
  | some teams0 =>
    cases pf with
    | none => exact ⟨fun _ => rfl, fun teams pool _ hp => by simp at hp⟩
    | some pool0 =>
      refine ⟨fun h => ?_, fun teams pool ht hp => ?_⟩
      · rcases h with h | h <;> simp at h
      · simp only [Option.some.injEq] at ht hp
        subst ht
        subst hp
        rfl

/-- Witness for C4 amended: an absent teams file leaves the file state
untouched. -/
theorem c4_witness :
    regeneratePlayersCSV ⟨none, some poolEmpty, some "stale"⟩
      = ⟨none, some poolEmpty, some "stale"⟩ :=
  (c4_generation_behavior ⟨none, some poolEmpty, some "stale"⟩).1 (Or.inl rfl)

/-- C5: in the leaderboard output, any earlier row has a strictly larger
total score than any later row, or an equal total score and a creation
time at most the later row's (descending score, ties by ascending
creation time). -/
theorem c5_leaderboard_order (s : Store) (i j : Fin (leaderboard s).length) (hij : i < j) :
    ((leaderboard s).get j).total_score < ((leaderboard s).get i).total_score
    ∨ (((leaderboard s).get i).total_score = ((leaderboard s).get j).total_score
       ∧ ((leaderboard s).get i).created_at ≤ ((leaderboard s).get j).created_at) := by
  have hs : List.Pairwise lbRel (leaderboard s) := by
    unfold leaderboard
    exact List.sorted_insertionSort lbRel _
  have h := List.pairwise_iff_get.mp hs i j hij
  simpa only [lbRel, lbLe, decide_eq_true_eq] using h

/-- Witness for C5: two tied entries, and the earlier-created one sorts
first. -/
theorem c5_witness :
    ((leaderboard sLB).get ⟨1, by decide⟩).total_score
        < ((leaderboard sLB).get ⟨0, by decide⟩).total_score
    ∨ (((leaderboard sLB).get ⟨0, by decide⟩).total_score
          = ((leaderboard sLB).get ⟨1, by decide⟩).total_score
       ∧ ((leaderboard sLB).get ⟨0, by decide⟩).created_at
          ≤ ((leaderboard sLB).get ⟨1, by decide⟩).created_at) :=
  c5_leaderboard_order sLB ⟨0, by decide⟩ ⟨1, by decide⟩ (by decide)

/-- C6: every entry with 14 entry_players rows appears on the leaderboard
with total equal to the sum over those rows of wildcard + divisional +
conference + superbowl from the matching player_scores row, a missing row
contributing 0. -/
theorem c6_leaderboard_total (s : Store) (e : EntryRow) (he : e ∈ s.entries)
    (hp : (entryPlayersOf s e.id).length = 14) :
    (⟨e.entry_name,
      ((entryPlayersOf s e.id).map (fun p =>
        match s.player_scores.find? (fun r => r.player_id = p.player_id) with
        | some r => r.wildcard + r.divisional + r.conference + r.superbowl
        | none => 0)).sum,
      e.created_at⟩ : LeaderboardRow) ∈ leaderboard s := by
  unfold leaderboard
  rw [(List.perm_insertionSort lbRel _).mem_iff]
  apply List.mem_map.mpr
  refine ⟨e, List.mem_filter.mpr ⟨he, ?_⟩, rfl⟩
  have hne : entryPlayersOf s e.id ≠ [] := by
    intro h0
    rw [h0] at hp
    simp at hp
  simp [List.isEmpty_iff, hne]

/-- Witness for C6: the 14-player entry of sC6 appears with its exact
aggregate, which evaluates to 8 (= 3 + 5 + 0 + 0 from its only scored
player, the other 13 players contributing 0). -/
theorem c6_witness :
    ((⟨"Team A",
      ((entryPlayersOf sC6 1).map (fun p =>
        match sC6.player_scores.find? (fun r => r.player_id = p.player_id) with
        | some r => r.wildcard + r.divisional + r.conference + r.superbowl
        | none => 0)).sum,
      10⟩ : LeaderboardRow) ∈ leaderboard sC6)
    ∧ ((entryPlayersOf sC6 1).map (fun p =>
        match sC6.player_scores.find? (fun r => r.player_id = p.player_id) with
        | some r => r.wildcard + r.divisional + r.conference + r.superbowl
        | none => 0)).sum = 8 :=
  ⟨c6_leaderboard_total sC6 ⟨1, "Team A", "a@b.c", false, "", 10⟩ (by decide) (by decide),
   by decide⟩

/-- C7: recordScore is a last-write-wins upsert with missing fields
defaulting to 0: after any call the stored row for that player id holds
exactly that call's values regardless of prior state, replaying the same
call leaves the store unchanged, and a second call with other values
replaces (never accumulates) the first. -/
theorem c7_recordScore_upsert (s : Store) (pid : String) (w d c sb : Option Int) :
    getScoreRow (recordScore s pid w d c sb) pid
        = some ⟨pid, w.getD 0, d.getD 0, c.getD 0, sb.getD 0⟩
    ∧ recordScore (recordScore s pid w d c sb) pid w d c sb = recordScore s pid w d c sb
    ∧ ∀ w2 d2 c2 sb2 : Option Int,
        getScoreRow (recordScore (recordScore s pid w d c sb) pid w2 d2 c2 sb2) pid
          = some ⟨pid, w2.getD 0, d2.getD 0, c2.getD 0, sb2.getD 0⟩ := by
  refine ⟨?_, ?_, ?_⟩
  · exact find_upsertScore s.player_scores ⟨pid, w.getD 0, d.getD 0, c.getD 0, sb.getD 0⟩
  · show (⟨_, _, upsertScore (upsertScore s.player_scores _) _, _⟩ : Store) = _
    rw [upsertScore_idem]
    rfl
  · intro w2 d2 c2 sb2
    exact find_upsertScore (recordScore s pid w d c sb).player_scores
      ⟨pid, w2.getD 0, d2.getD 0, c2.getD 0, sb2.getD 0⟩

/-- C8: catalog generation is a pure function of the two input files:
regenerating is idempotent on the file state, and two states with the
same (present) teams and pool files yield byte-identical players.csv
contents regardless of what catalog was there before. -/
theorem c8_regeneration_pure (fs fs2 : FileState) :
    regeneratePlayersCSV (regeneratePlayersCSV fs) = regeneratePlayersCSV fs
    ∧ (fs.teamsFile = fs2.teamsFile → fs.poolFile = fs2.poolFile →
       fs.teamsFile ≠ none → fs.poolFile ≠ none →
       (regeneratePlayersCSV fs).catalogFile = (regeneratePlayersCSV fs2).catalogFile) := by
  obtain ⟨tf, pf, cf⟩ := fs
  obtain ⟨tf2, pf2, cf2⟩ := fs2
  constructor
  · cases tf <;> cases pf <;> rfl
  · intro h1 h2 h3 h4
    cases tf with
    | none => exact absurd rfl h3
    | some teams =>
      cases pf with
      | none => exact absurd rfl h4
      | some pool =>
        simp only at h1 h2
        subst h1
        subst h2
        rfl

/-- Witness for C8: the same present inputs produce the same catalog
bytes whether or not a stale catalog file was present before. -/
theorem c8_witness :
    (regeneratePlayersCSV ⟨some ["A", "B"], some poolEmpty, none⟩).catalogFile
      = (regeneratePlayersCSV ⟨some ["A", "B"], some poolEmpty, some "stale"⟩).catalogFile :=
  (c8_regeneration_pure ⟨some ["A", "B"], some poolEmpty, none⟩
      ⟨some ["A", "B"], some poolEmpty, some "stale"⟩).2 rfl rfl (by decide) (by decide)

/-- C9 counterexample: with 14 teams of which one is S.F., the generated
kicker row for S.F. carries playerId K_S.F._SFK (the sanitization strips
the dots from the synthesized name S.F.K), not the claimed
K_S.F._S.F.K, and no row with the claimed id exists in the catalog. -/
theorem c9_counterexample :
    (catalogRows teams14 poolEmpty)[1]? = some "K_S.F._SFK,S.F.K,K,S.F."
    ∧ "K_S.F._SFK,S.F.K,K,S.F." ≠ "K_S.F._S.F.K,S.F.K,K,S.F."
    ∧ "K_S.F._S.F.K,S.F.K,K,S.F." ∉ catalogRows teams14 poolEmpty := by
  decide

/-- C9 amended: the catalog is the header, then the pool players grouped
in position order QB, RB, WR, TE with playerId position_team_sanitizedName,
then exactly one synthesized kicker per playoff team named {team}K whose
playerId is K_{team}_{sanitize(team + K)}; that id equals the claimed
K_{team}_{team}K exactly when the team string is alphanumeric. -/
theorem c9_catalog_layout (teams : List String) (pool : Pool) :
    catalogRows teams pool
      = "PlayerID,PlayerName,Position,TeamID"
        :: (posRowsSpec pool "QB" ++ posRowsSpec pool "RB" ++ posRowsSpec pool "WR"
            ++ posRowsSpec pool "TE"
            ++ teams.map (fun t => csvRow "K" t (t ++ "K")))
    ∧ (∀ pos team name, csvRow pos team name
        = pos ++ "_" ++ team ++ "_" ++ sanitize name ++ "," ++ name ++ "," ++ pos ++ "," ++ team)
    ∧ (∀ t, (∀ c ∈ t.data, isCsvAlnum c = true) →
        csvRow "K" t (t ++ "K")
          = "K_" ++ t ++ "_" ++ t ++ "K" ++ "," ++ t ++ "K" ++ ",K," ++ t) := by
  refine ⟨?_, fun pos team name => rfl, kicker_row_eq⟩
  unfold catalogRows
  rw [foldl_push_eq_append_map]
  simp only [List.foldl_cons, List.foldl_nil]
  rw [addPosRows_eq, addPosRows_eq, addPosRows_eq, addPosRows_eq]
  simp [List.append_assoc]

/-- Witness for C9 amended at a one-team, one-quarterback configuration
with an alphanumeric team. -/
theorem c9_witness :
    catalogRows ["KC"] poolOne
      = "PlayerID,PlayerName,Position,TeamID"
        :: (posRowsSpec poolOne "QB" ++ posRowsSpec poolOne "RB" ++ posRowsSpec poolOne "WR"
            ++ posRowsSpec poolOne "TE"
            ++ ["KC"].map (fun t => csvRow "K" t (t ++ "K")))
    ∧ csvRow "K" "KC" ("KC" ++ "K")
        = "K_" ++ "KC" ++ "_" ++ "KC" ++ "K" ++ "," ++ "KC" ++ "K" ++ ",K," ++ "KC" := by
  have h := c9_catalog_layout ["KC"] poolOne
  exact ⟨h.1, h.2.2 "KC" (by decide)⟩

/-- C10: bulk import is transactional replacement.  If any pick of any
imported row fails to resolve against the catalog, the import returns the
store exactly as it was (the deletes are rolled back too); on success the
entries table holds exactly the imported rows (pre-import entries are
gone) and every inserted entry player carries the playerId re-derived by
the name+team+position catalog lookup. -/
theorem c10_import_replace_or_rollback (s : Store) (cat : List CatalogRow)
    (rows : List ImportRow) (now : Nat) :
    ((∃ r ∈ rows, ∃ p ∈ r.players, resolvePick cat p = none) →
        importEntries s cat rows now = (s, false))
    ∧ ((importEntries s cat rows now).2 = true →
        (importEntries s cat rows now).1.entries = entriesFromRows now s.nextEntryId rows
        ∧ ∀ ep ∈ (importEntries s cat rows now).1.entry_players,
            ∃ r ∈ rows, ∃ p ∈ r.players,
              resolvePick cat p = some (ep.player_id, ep.player_name, ep.position, ep.team)) := by
  constructor
  · rintro ⟨r, hr, p, hp, hres⟩
    have hne : rows.isEmpty = false := by
      cases rows with
      | nil => simp at hr
      | cons a l => rfl
    unfold importEntries
    rw [if_neg (by simp [hne]), insertImportRows_of_unresolved cat now rows s.nextEntryId
      ⟨r, hr, p, hp, hres⟩]
  · intro hsucc
    unfold importEntries at hsucc ⊢
    by_cases he : rows.isEmpty = true
    · rw [if_pos he] at hsucc
      simp at hsucc
    · rw [if_neg he] at hsucc ⊢
      cases hins : insertImportRows cat now s.nextEntryId rows with
      | none => rw [hins] at hsucc; simp at hsucc
      | some q =>
        exact ⟨insertImportRows_entries cat now rows s.nextEntryId q.1 q.2 (by rw [hins]),
          fun ep hep =>
            insertImportRows_players cat now rows s.nextEntryId q.1 q.2 (by rw [hins]) ep hep⟩

/-- Witness for C10: an import whose only pick is absent from the catalog
leaves the pre-import store (one entry, one player row) untouched. -/
theorem c10_witness : importEntries sW catW [rowW] 9 = (sW, false) :=
  (c10_import_replace_or_rollback sW catW [rowW] 9).1
    ⟨rowW, by decide, ⟨"Jane Doe", "KC", "QB"⟩, by decide, by decide⟩
